import Mathlib

/-!
Verification of `bump-tf-values` (main.go): a one-shot tool that updates one
attribute inside a `locals` block of an HCL file and rewrites the file in place.

The embedding models the hclwrite library at the token level: a parsed file is a
list of top-level items (blocks and raw trivia), a block body is a list of items
(attributes and raw trivia), and every piece of source text that the library
preserves verbatim is carried as a string field.  Serialization (`WriteTo`)
concatenates all tokens; `Body.GetAttribute` returns the attribute with the given
name; `Body.SetAttributeValue` replaces the value tokens of an existing attribute
with the rendering of a `cty.StringVal` (or appends a fresh attribute line when
absent).  File-system effects (open/stat/read/truncate/seek/write/close) are
modelled by explicit outcome parameters in `SysBehavior`, and the external parser
`hclwrite.ParseConfig` is a function parameter of type `String → Except String HclFile`.
-/

namespace BumpTf

/-- An attribute line inside a block body, as hclwrite stores it: leading trivia,
the attribute name, the tokens between name and value (spaces and the equals
sign), the value expression tokens, and trailing trivia up to the newline. -/
structure Attr where
  lead : String
  name : String
  mid : String
  valueToks : String
  trail : String
deriving DecidableEq

/-- An item of a block body: an attribute, or raw trivia (comments, blank lines). -/
inductive BodyItem where
  | attr (a : Attr)
  | raw (s : String)
deriving DecidableEq

/-- A block: trivia before the type keyword, the declared type (`Block.Type()`),
the tokens after the type (labels and the opening brace through end of line),
the body items, and the closing-brace tokens. -/
structure Block where
  lead : String
  type : String
  afterType : String
  body : List BodyItem
  close : String
deriving DecidableEq

/-- A top-level item of the file body: a block, or raw tokens that are not part
of any block (top-level attributes, comments, blank lines). -/
inductive TopItem where
  | block (b : Block)
  | raw (s : String)
deriving DecidableEq

/-- The parsed document (`hclwrite.File`): the ordered list of top-level items. -/
structure HclFile where
  items : List TopItem
deriving DecidableEq

/-- Escaping performed by hclwrite when rendering a string literal token:
backslash, double quote, newline, carriage return and tab are escaped. -/
def escapeStringToken (s : String) : String :=
  ⟨s.data.foldr (fun c acc =>
    match c with
    | '\\' => '\\' :: '\\' :: acc
    | '"' => '\\' :: '"' :: acc
    | '\n' => '\\' :: 'n' :: acc
    | '\r' => '\\' :: 'r' :: acc
    | '\t' => '\\' :: 't' :: acc
    | c => c :: acc) []⟩

/-- The tokens hclwrite generates for `cty.StringVal v`: a quoted string literal. -/
def tokensForString (v : String) : String :=
  "\"" ++ escapeStringToken v ++ "\""

/-- `Body.GetAttribute name`: the attribute of the body with the given name
(attribute names are unique within a body; the scan returns the first). -/
def getAttribute : List BodyItem → String → Option Attr
  | [], _ => none
  | .attr a :: rest, n => if a.name = n then some a else getAttribute rest n
  | .raw _ :: rest, n => getAttribute rest n

/-- A fresh attribute line `name = "v"` as hclwrite appends it when
`SetAttributeValue` is called for an absent name. -/
def newAttrLine (n v : String) : Attr :=
  { lead := "", name := n, mid := " = ", valueToks := tokensForString v, trail := "\n" }

/-- `Body.SetAttributeValue name (cty.StringVal v)`: replace the value tokens of
the existing attribute with the quoted literal for `v`, keeping every other
token of the body; append a fresh line when the attribute is absent. -/
def setAttrInBody : List BodyItem → String → String → List BodyItem
  | [], n, v => [.attr (newAttrLine n v)]
  | .attr a :: rest, n, v =>
    if a.name = n then .attr { a with valueToks := tokensForString v } :: rest
    else .attr a :: setAttrInBody rest n v
  | .raw s :: rest, n, v => .raw s :: setAttrInBody rest n v

/-- `Block.Body().SetAttributeValue` on a block. -/
def setBlockAttr (b : Block) (n v : String) : Block :=
  { b with body := setAttrInBody b.body n v }

/-- Serialization of an attribute: all of its tokens in order. -/
def serializeAttr (a : Attr) : String :=
  a.lead ++ a.name ++ a.mid ++ a.valueToks ++ a.trail

/-- Serialization of one body item. -/
def serializeBodyItem : BodyItem → String
  | .attr a => serializeAttr a
  | .raw s => s

/-- Serialization of a body: concatenation of its items. -/
def serializeBody : List BodyItem → String
  | [] => ""
  | i :: rest => serializeBodyItem i ++ serializeBody rest

/-- Serialization of a block. -/
def serializeBlock (b : Block) : String :=
  b.lead ++ b.type ++ b.afterType ++ serializeBody b.body ++ b.close

/-- Serialization of a top-level item. -/
def serializeTopItem : TopItem → String
  | .block b => serializeBlock b
  | .raw s => s

/-- Serialization of a list of top-level items. -/
def serializeItems : List TopItem → String
  | [] => ""
  | i :: rest => serializeTopItem i ++ serializeItems rest

/-- `hclwrite.File.WriteTo` / `Bytes()`: the whole token stream of the file.
Unmodified tokens are reproduced byte for byte. -/
def serialize (f : HclFile) : String :=
  serializeItems f.items

/-- The error message built by `updateLocal` when the variable is missing:
`fmt.Errorf("local variable \x27%s\x27 not found", varname)`. -/
def notFoundMsg (varname : String) : String :=
  "local variable \x27" ++ varname ++ "\x27 not found"

/-- The loop body of `updateLocal`: iterate the top-level blocks in order; for
each block of type `locals`, look the attribute up; on the first hit set its
value to the quoted string and break.  Returns the resulting items and the
`found` flag.  Raw top-level items are not blocks and are skipped by
`Body().Blocks()`. -/
def updateBlocksLoop : List TopItem → String → String → List TopItem × Bool
  | [], _, _ => ([], false)
  | .block b :: rest, n, v =>
    if b.type = "locals" then
      match getAttribute b.body n with
      | some _ => (.block (setBlockAttr b n v) :: rest, true)
      | none =>
        (.block b :: (updateBlocksLoop rest n v).1, (updateBlocksLoop rest n v).2)
    else
      (.block b :: (updateBlocksLoop rest n v).1, (updateBlocksLoop rest n v).2)
  | .raw s :: rest, n, v =>
    (.raw s :: (updateBlocksLoop rest n v).1, (updateBlocksLoop rest n v).2)

/-- `updateLocal(ctx, file, varname, value)`: run the loop; if no block matched,
report the not-found error.  The result is the document state after the call
(the Go function mutates the document in place) paired with the returned error. -/
def updateLocal (f : HclFile) (varname value : String) : HclFile × Option String :=
  if (updateBlocksLoop f.items varname value).2 then
    (⟨(updateBlocksLoop f.items varname value).1⟩, none)
  else
    (⟨(updateBlocksLoop f.items varname value).1⟩, some (notFoundMsg varname))

/-- A block of type `locals` whose body defines the attribute `n`. -/
def isMatch (t : TopItem) (n : String) : Bool :=
  match t with
  | .block b => b.type = "locals" && (getAttribute b.body n).isSome
  | .raw _ => false

/-- Some top-level `locals` block defines the attribute `n`. -/
def hasMatchIn (items : List TopItem) (n : String) : Bool :=
  items.any (fun t => isMatch t n)

/-- Outcomes of the file-system calls made during one run.  `readCount` is the
number of bytes the single `file.Read` call delivers (the OS may deliver fewer
than the buffer size; the model clamps it to the file size).  Each `…Err` field
is `some msg` when the corresponding call fails with that error text. -/
structure SysBehavior where
  openResult : Option String
  statErr : Option String
  readCount : Nat
  readErr : Option String
  truncateErr : Option String
  seekErr : Option String
  writeErr : Option String
  closeErr : Option String
deriving DecidableEq

/-- The buffer contents after the single `file.Read(content)` call into
`make([]byte, size)`: the first `readCount` bytes of the file (clamped to its
size) followed by the untouched zero bytes of the rest of the buffer. -/
def readBuffer (sys : SysBehavior) (contents : String) : String :=
  ⟨contents.data.take (min sys.readCount contents.length) ++
    List.replicate (contents.length - min sys.readCount contents.length) (Char.ofNat 0)⟩

/-- `parseHclFile(ctx, file)`: stat the handle, read into a buffer of exactly
the statted size checking only the read's error (not the byte count), and hand
the buffer to `hclwrite.ParseConfig` (the `parse` parameter).  Each failure is
wrapped with the stage text from main.go. -/
def parseHclFile (sys : SysBehavior) (parse : String → Except String HclFile)
    (file : Option String) : Except String HclFile :=
  match file with
  | none => .error "failed to get file info: invalid argument"
  | some contents =>
    match sys.statErr with
    | some e => .error ("failed to get file info: " ++ e)
    | none =>
      match sys.readErr with
      | some e => .error ("failed to read file content: " ++ e)
      | none =>
        match parse (readBuffer sys contents) with
        | .error diags => .error ("failed to parse file content: " ++ diags)
        | .ok f => .ok f

/-- `saveHCLToFile(file, ctx, hclFile)`: truncate to zero, seek to the start,
write the serialized document.  Returns the file contents after the call and
the error.  A failed truncate leaves the contents untouched; after a successful
truncate the file is empty until the write lands (bytes written by a failing
`WriteTo` are not modelled). -/
def saveHCLToFile (sys : SysBehavior) (contents : String) (f : HclFile) :
    String × Option String :=
  match sys.truncateErr with
  | some e => (contents, some ("failed to truncate file: " ++ e))
  | none =>
    match sys.seekErr with
    | some e => ("", some ("failed to seek the start of file: " ++ e))
    | none =>
      match sys.writeErr with
      | some e => ("", some ("failed to write to file: " ++ e))
      | none => (serialize f, none)

/-- The open-to-save body of `updateHclFile`: parse, update, save, wrapping each
stage's error with its stage text; the file contents are only touched by the
save stage.  Returns (contents after, returned error). -/
def updateHclFileCore (sys : SysBehavior) (parse : String → Except String HclFile)
    (contents varname value : String) : String × Option String :=
  match parseHclFile sys parse (some contents) with
  | .error e => (contents, some ("failed to parse HCL file: " ++ e))
  | .ok f =>
    match updateLocal f varname value with
    | (_, some e) => (contents, some ("failed to update local: " ++ e))
    | (f1, none) =>
      match saveHCLToFile sys contents f1 with
      | (c, some e) => (c, some ("failed to save to file: " ++ e))
      | (c, none) => (c, none)

/-- The observable outcome of one `updateHclFile` run: the on-disk contents
after the run, the error value the function returns, and the messages logged. -/
structure RunResult where
  contents : String
  ret : Option String
  log : List String
deriving DecidableEq

/-- `updateHclFile(ctx, filePath, varname, value)`: open the file (failing
early, before the close is deferred); run parse → update → save; then the
deferred close runs.  The function's return value is unnamed in Go, so the
deferred `err = file.Close()` assignment cannot change it; a close failure is
only logged. -/
def updateHclFile (sys : SysBehavior) (parse : String → Except String HclFile)
    (contents varname value : String) : RunResult :=
  match sys.openResult with
  | some e => { contents := contents, ret := some ("failed to open file: " ++ e), log := [] }
  | none =>
    { contents := (updateHclFileCore sys parse contents varname value).1,
      ret := (updateHclFileCore sys parse contents varname value).2,
      log :=
        match sys.closeErr with
        | some e => ["Error closing file " ++ e]
        | none => [] }

/-- A run in which every file-system call succeeds and the single read delivers
the whole file (`sz` is the file's size). -/
def benignSys (sz : Nat) : SysBehavior :=
  { openResult := none, statErr := none, readCount := sz, readErr := none,
    truncateErr := none, seekErr := none, writeErr := none, closeErr := none }

/-- `s` contains `t` as a contiguous substring. -/
def strContains (s t : String) : Prop :=
  ∃ a b, s = a ++ t ++ b

/-! ### Concrete sample inputs (scenario A of the spec and variants) -/

/-- The attribute `code_version = "1.1.1.1"` of the spec's scenario A. -/
def sampleAttr : Attr :=
  { lead := "  ", name := "code_version", mid := " = ",
    valueToks := "\"1.1.1.1\"", trail := "\n" }

/-- A `locals` block holding `sampleAttr`. -/
def sampleBlock : Block :=
  { lead := "", type := "locals", afterType := " \x7b\n",
    body := [.attr sampleAttr], close := "\x7d\n" }

/-- A second `locals` block that also defines `code_version`. -/
def sampleBlock2 : Block :=
  { lead := "\n", type := "locals", afterType := " \x7b\n",
    body := [.attr { sampleAttr with valueToks := "\"9.9.9\"" }], close := "\x7d\n" }

/-- A file with a single `locals` block defining `code_version`. -/
def sampleFile : HclFile := ⟨[.block sampleBlock]⟩

/-- `sampleFile` after bumping `code_version` to `v2.55.4`. -/
def sampleUpdated : HclFile := (updateLocal sampleFile "code_version" "v2.55.4").1

/-- An attribute whose current value tokens are the number literal `42`. -/
def numericAttr : Attr :=
  { lead := "  ", name := "replica_count", mid := " = ", valueToks := "42", trail := "\n" }

/-- A `locals` block whose `replica_count` attribute holds a number. -/
def numericBlock : Block :=
  { lead := "", type := "locals", afterType := " \x7b\n",
    body := [.attr numericAttr], close := "\x7d\n" }

/-- A parser stub for the pipeline theorems: it recognises exactly the
serializations of `sampleFile` and `sampleUpdated`. -/
def toyParse : String → Except String HclFile := fun t =>
  if t = serialize sampleFile then .ok sampleFile
  else if t = serialize sampleUpdated then .ok sampleUpdated
  else .error "unexpected token"

/-- A parser stub accepting any bytes as the empty document. -/
def parseAccept : String → Except String HclFile := fun _ => .ok ⟨[]⟩

/-- File-system outcomes where every call succeeds but the single read
delivers zero bytes. -/
def sysShort : SysBehavior :=
  { openResult := none, statErr := none, readCount := 0, readErr := none,
    truncateErr := none, seekErr := none, writeErr := none, closeErr := none }

/-! ### Structural lemmas about the update loop -/

lemma updateBlocksLoop_snd (items : List TopItem) (n v : String) :
    (updateBlocksLoop items n v).2 = hasMatchIn items n := by
  induction items with
  | nil => simp [updateBlocksLoop, hasMatchIn]
  | cons i rest ih =>
    cases i with
    | block b =>
      by_cases ht : b.type = "locals"
      · cases hg : getAttribute b.body n with
        | some a => simp [updateBlocksLoop, hasMatchIn, isMatch, ht, hg]
        | none => simp [updateBlocksLoop, hasMatchIn, isMatch, ht, hg, ih, hasMatchIn] at ih ⊢
      · simp [updateBlocksLoop, hasMatchIn, isMatch, ht] at ih ⊢
        exact ih
    | raw s =>
      simp [updateBlocksLoop, hasMatchIn, isMatch] at ih ⊢
      exact ih

lemma updateBlocksLoop_no_match (items : List TopItem) (n v : String)
    (h : hasMatchIn items n = false) : updateBlocksLoop items n v = (items, false) := by
  induction items with
  | nil => simp [updateBlocksLoop]
  | cons i rest ih =>
    cases i with
    | block b =>
      simp [hasMatchIn, isMatch] at h
      by_cases ht : b.type = "locals"
      · cases hg : getAttribute b.body n with
        | some a =>
          exfalso
          have := h.1 ht
          simp [hg] at this
        | none =>
          have hrest : hasMatchIn rest n = false := by
            simp [hasMatchIn]
            exact h.2
          simp [updateBlocksLoop, ht, hg, ih hrest]
      · have hrest : hasMatchIn rest n = false := by
          simp [hasMatchIn]
          exact h.2
        simp [updateBlocksLoop, ht, ih hrest]
    | raw s =>
      simp [hasMatchIn, isMatch] at h
      have hrest : hasMatchIn rest n = false := by
        simp [hasMatchIn]
        exact h
      simp [updateBlocksLoop, ih hrest]

lemma updateBlocksLoop_found (pre post : List TopItem) (b : Block) (n v : String)
    (hpre : hasMatchIn pre n = false) (ht : b.type = "locals")
    (hg : (getAttribute b.body n).isSome = true) :
    updateBlocksLoop (pre ++ .block b :: post) n v
      = (pre ++ .block (setBlockAttr b n v) :: post, true) := by
  induction pre with
  | nil =>
    cases hga : getAttribute b.body n with
    | some a => simp [updateBlocksLoop, ht, hga]
    | none => simp [hga] at hg
  | cons i rest ih =>
    cases i with
    | block b0 =>
      simp [hasMatchIn, isMatch] at hpre
      have hrest : hasMatchIn rest n = false := by
        simp [hasMatchIn]
        exact hpre.2
      by_cases ht0 : b0.type = "locals"
      · cases hg0 : getAttribute b0.body n with
        | some a0 =>
          exfalso
          have := hpre.1 ht0
          simp [hg0] at this
        | none => simp [updateBlocksLoop, ht0, hg0, ih hrest]
      · simp [updateBlocksLoop, ht0, ih hrest]
    | raw s =>
      simp [hasMatchIn, isMatch] at hpre
      have hrest : hasMatchIn rest n = false := by
        simp [hasMatchIn]
        exact hpre
      simp [updateBlocksLoop, ih hrest]

/-! ### Decomposition lemmas -/

lemma getAttribute_decomp (body : List BodyItem) (n : String) (a : Attr)
    (h : getAttribute body n = some a) :
    ∃ bp bq, body = bp ++ .attr a :: bq ∧ a.name = n ∧ getAttribute bp n = none := by
  induction body with
  | nil => simp [getAttribute] at h
  | cons i rest ih =>
    cases i with
    | attr a0 =>
      by_cases hn : a0.name = n
      · refine ⟨[], rest, ?_, ?_, by simp [getAttribute]⟩
        · simp [getAttribute, hn] at h
          simp [h]
        · simp [getAttribute, hn] at h
          rw [← h]
          exact hn
      · simp [getAttribute, hn] at h
        obtain ⟨bp, bq, hb, hname, hget⟩ := ih h
        exact ⟨.attr a0 :: bp, bq, by simp [hb], hname, by simp [getAttribute, hn, hget]⟩
    | raw s =>
      simp [getAttribute] at h
      obtain ⟨bp, bq, hb, hname, hget⟩ := ih h
      exact ⟨.raw s :: bp, bq, by simp [hb], hname, by simp [getAttribute, hget]⟩

lemma setAttrInBody_decomp (bp bq : List BodyItem) (a : Attr) (n v : String)
    (hpre : getAttribute bp n = none) (hname : a.name = n) :
    setAttrInBody (bp ++ .attr a :: bq) n v
      = bp ++ .attr { a with valueToks := tokensForString v } :: bq := by
  induction bp with
  | nil => simp [setAttrInBody, hname]
  | cons i rest ih =>
    cases i with
    | attr a0 =>
      by_cases hn : a0.name = n
      · simp [getAttribute, hn] at hpre
      · simp [getAttribute, hn] at hpre
        simp [setAttrInBody, hn, ih hpre]
    | raw s =>
      simp [getAttribute] at hpre
      simp [setAttrInBody, ih hpre]

lemma hasMatchIn_decomp (items : List TopItem) (n : String)
    (h : hasMatchIn items n = true) :
    ∃ pre b post, items = pre ++ .block b :: post ∧ hasMatchIn pre n = false ∧
      b.type = "locals" ∧ (getAttribute b.body n).isSome = true := by
  induction items with
  | nil => simp [hasMatchIn] at h
  | cons i rest ih =>
    by_cases hi : isMatch i n = true
    · cases i with
      | block b =>
        simp [isMatch] at hi
        exact ⟨[], b, rest, rfl, by simp [hasMatchIn], hi.1, hi.2⟩
      | raw s => simp [isMatch] at hi
    · have hrest : hasMatchIn rest n = true := by
        simp [hasMatchIn] at h ⊢
        rcases h with h | h
        · exact absurd h (by simpa using hi)
        · exact h
      obtain ⟨pre, b, post, hitems, hpre, ht, hg⟩ := ih hrest
      refine ⟨i :: pre, b, post, by simp [hitems], ?_, ht, hg⟩
      simp [hasMatchIn] at hpre ⊢
      exact ⟨by simpa using hi, hpre⟩

lemma getAttribute_append_none (bp l : List BodyItem) (n : String)
    (h : getAttribute bp n = none) :
    getAttribute (bp ++ l) n = getAttribute l n := by
  induction bp with
  | nil => simp
  | cons i rest ih =>
    cases i with
    | attr a =>
      by_cases hn : a.name = n
      · simp [getAttribute, hn] at h
      · simp [getAttribute, hn] at h ⊢
        exact ih h
    | raw s =>
      simp [getAttribute] at h ⊢
      exact ih h

lemma getAttribute_setAttrInBody (body : List BodyItem) (n v : String) (a : Attr)
    (h : getAttribute body n = some a) :
    getAttribute (setAttrInBody body n v) n
      = some { a with valueToks := tokensForString v } := by
  obtain ⟨bp, bq, hb, hname, hbp⟩ := getAttribute_decomp body n a h
  subst hb
  rw [setAttrInBody_decomp bp bq a n v hbp hname,
    getAttribute_append_none bp _ n hbp]
  simp [getAttribute, hname]

lemma setAttrInBody_twice (body : List BodyItem) (n v : String) :
    setAttrInBody (setAttrInBody body n v) n v = setAttrInBody body n v := by
  induction body with
  | nil => simp [setAttrInBody, newAttrLine]
  | cons i rest ih =>
    cases i with
    | attr a =>
      by_cases hn : a.name = n
      · simp [setAttrInBody, hn]
      · simp [setAttrInBody, hn, ih]
    | raw s => simp [setAttrInBody, ih]

/-! ### Serialization homomorphisms -/

lemma serializeBody_append (xs ys : List BodyItem) :
    serializeBody (xs ++ ys) = serializeBody xs ++ serializeBody ys := by
  induction xs with
  | nil => simp [serializeBody]
  | cons i rest ih => simp [serializeBody, ih, String.append_assoc]

lemma serializeItems_append (xs ys : List TopItem) :
    serializeItems (xs ++ ys) = serializeItems xs ++ serializeItems ys := by
  induction xs with
  | nil => simp [serializeItems]
  | cons i rest ih => simp [serializeItems, ih, String.append_assoc]

/-! ### The not-found message -/

lemma notFoundMsg_contains_name (n : String) : strContains (notFoundMsg n) n :=
  ⟨"local variable \x27", "\x27 not found", rfl⟩

lemma notFoundMsg_contains_not_found (n : String) :
    strContains (notFoundMsg n) "not found" := by
  refine ⟨"local variable \x27" ++ n ++ "\x27 ", "", ?_⟩
  have h : ("\x27 not found" : String) = "\x27 " ++ ("not found" ++ "") := by decide
  show "local variable \x27" ++ (n ++ "\x27 not found") = _
  rw [h]
  simp [String.append_assoc]

/-! ### Claim theorems -/

/-- Claim C2: `updateLocal` returns an error exactly when no `locals` block of
the document defines the requested attribute (its only error condition), and the
reported message contains the attribute name and the words "not found". -/
theorem updateLocal_error_iff_not_found (f : HclFile) (varname value : String) :
    ((updateLocal f varname value).2.isSome ↔ hasMatchIn f.items varname = false) ∧
    (∀ m, (updateLocal f varname value).2 = some m →
      strContains m varname ∧ strContains m "not found") := by
  constructor
  · rw [updateLocal]
    cases hb : (updateBlocksLoop f.items varname value).2 with
    | false =>
      rw [← updateBlocksLoop_snd f.items varname value, hb]
      simp
    | true =>
      rw [← updateBlocksLoop_snd f.items varname value, hb]
      simp
  · intro m hm
    rw [updateLocal] at hm
    cases hb : (updateBlocksLoop f.items varname value).2 with
    | false =>
      rw [hb] at hm
      simp at hm
      rw [← hm]
      exact ⟨notFoundMsg_contains_name varname, notFoundMsg_contains_not_found varname⟩
    | true =>
      rw [hb] at hm
      simp at hm

/-- Claim C9: when the attribute is absent from every `locals` block,
`updateLocal` reports the not-found error without mutating the document at all:
the document it leaves behind is the one it was given. -/
theorem updateLocal_not_found_no_mutation (f : HclFile) (varname value m : String)
    (h : (updateLocal f varname value).2 = some m) :
    (updateLocal f varname value).1 = f := by
  rw [updateLocal] at h ⊢
  cases hb : (updateBlocksLoop f.items varname value).2 with
  | false =>
    have hm : hasMatchIn f.items varname = false := by
      rw [← updateBlocksLoop_snd f.items varname value, hb]
    rw [updateBlocksLoop_no_match f.items varname value hm]
    simp
  | true =>
    rw [hb] at h
    simp at h

/-- Claim C1: with two `locals` blocks both defining the target attribute, only
the first one (in document order) is updated — its attribute receives the quoted
string literal for `newValue` — and the scan stops there: the second block, and
everything between and after, appears unchanged in the result. -/
theorem updateLocal_first_match_wins (pre mid post : List TopItem) (b1 b2 : Block)
    (a1 : Attr) (varname value : String)
    (hpre : hasMatchIn pre varname = false)
    (ht1 : b1.type = "locals") (hg1 : getAttribute b1.body varname = some a1)
    (ht2 : b2.type = "locals") (hg2 : (getAttribute b2.body varname).isSome = true) :
    updateLocal ⟨pre ++ .block b1 :: (mid ++ .block b2 :: post)⟩ varname value
      = (⟨pre ++ .block (setBlockAttr b1 varname value) :: (mid ++ .block b2 :: post)⟩,
         none) ∧
    getAttribute (setBlockAttr b1 varname value).body varname
      = some { a1 with valueToks := tokensForString value } := by
  have hloop := updateBlocksLoop_found pre (mid ++ .block b2 :: post) b1 varname value
    hpre ht1 (by simp [hg1])
  constructor
  · rw [updateLocal]
    simp only [hloop]
    simp
  · exact getAttribute_setAttrInBody b1.body varname value a1 hg1

/-- Claim C10: `updateLocal` never inspects the current value tokens of the
matched attribute: whatever expression the attribute holds (a number, boolean,
list or arbitrary expression tokens), the call succeeds and replaces it with the
quoted string literal for `newValue`. -/
theorem updateLocal_ignores_value_type (pre post : List TopItem)
    (bp bq : List BodyItem) (b : Block) (a : Attr) (value : String)
    (hpre : hasMatchIn pre a.name = false)
    (ht : b.type = "locals")
    (hbody : b.body = bp ++ .attr a :: bq)
    (hbp : getAttribute bp a.name = none) :
    updateLocal ⟨pre ++ .block b :: post⟩ a.name value
      = (⟨pre ++ .block
            { b with body := bp ++ .attr { a with valueToks := tokensForString value } :: bq }
          :: post⟩, none) := by
  have hget : getAttribute b.body a.name = some a := by
    rw [hbody, getAttribute_append_none bp _ a.name hbp]
    simp [getAttribute]
  have hloop := updateBlocksLoop_found pre post b a.name value hpre ht (by simp [hget])
  rw [updateLocal]
  simp only [hloop]
  simp only [setBlockAttr, hbody, setAttrInBody_decomp bp bq a a.name value hbp rfl]
  simp

/-- Claim C4: when the update succeeds, the serialized output differs from the
serialized input only in the targeted attribute's value literal: the bytes
before it and the bytes after it are identical, and the literal itself becomes
the quoted string for `newValue`. -/
theorem updateLocal_only_value_literal_changes (f f1 : HclFile)
    (varname value : String)
    (h : updateLocal f varname value = (f1, none)) :
    ∃ before old after,
      serialize f = before ++ (old ++ after) ∧
      serialize f1 = before ++ (tokensForString value ++ after) := by
  have hsome : (updateBlocksLoop f.items varname value).2 = true := by
    cases hb : (updateBlocksLoop f.items varname value).2 with
    | false => rw [updateLocal, hb] at h; simp at h
    | true => rfl
  have hm : hasMatchIn f.items varname = true := by
    rw [← updateBlocksLoop_snd f.items varname value, hsome]
  obtain ⟨pre, b, post, hitems, hpre, ht, hg⟩ := hasMatchIn_decomp f.items varname hm
  obtain ⟨a, hga⟩ := Option.isSome_iff_exists.mp hg
  obtain ⟨bp, bq, hbody, hname, hbp⟩ := getAttribute_decomp b.body varname a hga
  have hloop := updateBlocksLoop_found pre post b varname value hpre ht hg
  have hupd : updateLocal f varname value
      = (⟨pre ++ .block (setBlockAttr b varname value) :: post⟩, none) := by
    rw [updateLocal]
    rw [hitems]
    simp only [hloop]
    simp
  have hf1 : f1 = ⟨pre ++ .block (setBlockAttr b varname value) :: post⟩ := by
    rw [hupd] at h
    exact (Prod.mk.injEq _ _ _ _).mp h.symm |>.1
  refine ⟨serializeItems pre ++ (b.lead ++ (b.type ++ (b.afterType ++
            (serializeBody bp ++ (a.lead ++ (a.name ++ a.mid)))))),
          a.valueToks,
          a.trail ++ (serializeBody bq ++ (b.close ++ serializeItems post)), ?_, ?_⟩
  · rw [serialize, hitems, serializeItems_append]
    simp [serializeItems, serializeTopItem, serializeBlock, hbody,
      serializeBody_append, serializeBody, serializeBodyItem, serializeAttr,
      String.append_assoc]
  · rw [serialize, hf1, serializeItems_append]
    simp [serializeItems, serializeTopItem, serializeBlock, setBlockAttr, hbody,
      setAttrInBody_decomp bp bq a varname value hbp hname,
      serializeBody_append, serializeBody, serializeBodyItem, serializeAttr,
      String.append_assoc]

lemma readBuffer_eq_self (sys : SysBehavior) (s : String)
    (h : s.length ≤ sys.readCount) : readBuffer sys s = s := by
  rw [readBuffer, Nat.min_eq_right h, Nat.sub_self]
  show (⟨s.data.take s.data.length ++ List.replicate 0 (Char.ofNat 0)⟩ : String) = s
  rw [List.replicate, List.append_nil, List.take_length]

lemma updateLocal_idem (f f1 : HclFile) (varname value : String)
    (h : updateLocal f varname value = (f1, none)) :
    updateLocal f1 varname value = (f1, none) := by
  have hsome : (updateBlocksLoop f.items varname value).2 = true := by
    cases hb : (updateBlocksLoop f.items varname value).2 with
    | false => rw [updateLocal, hb] at h; simp at h
    | true => rfl
  have hm : hasMatchIn f.items varname = true := by
    rw [← updateBlocksLoop_snd f.items varname value, hsome]
  obtain ⟨pre, b, post, hitems, hpre, ht, hg⟩ := hasMatchIn_decomp f.items varname hm
  obtain ⟨a, hga⟩ := Option.isSome_iff_exists.mp hg
  have hloop := updateBlocksLoop_found pre post b varname value hpre ht hg
  have hupd : updateLocal f varname value
      = (⟨pre ++ .block (setBlockAttr b varname value) :: post⟩, none) := by
    rw [updateLocal, hitems]
    simp only [hloop]
    simp
  have hf1 : f1 = ⟨pre ++ .block (setBlockAttr b varname value) :: post⟩ := by
    rw [hupd] at h
    exact (Prod.mk.injEq _ _ _ _).mp h.symm |>.1
  have ht' : (setBlockAttr b varname value).type = "locals" := by
    simp [setBlockAttr, ht]
  have hg' : (getAttribute (setBlockAttr b varname value).body varname).isSome = true := by
    rw [setBlockAttr, getAttribute_setAttrInBody b.body varname value a hga]
    rfl
  have hloop' := updateBlocksLoop_found pre post (setBlockAttr b varname value)
    varname value hpre ht' hg'
  have hset : setBlockAttr (setBlockAttr b varname value) varname value
      = setBlockAttr b varname value := by
    simp [setBlockAttr, setAttrInBody_twice]
  rw [hf1, updateLocal]
  simp only [hloop', hset]
  simp

/-- Claim C5: the pipeline is idempotent.  If one run parses the file to `f`,
updates it to `f1` and saves `serialize f1`, then a second run on that saved
file — assuming the black-box parser reproduces the tree it serialized
(`parse (serialize f1) = .ok f1`, hclwrite's round-trip guarantee) — succeeds
and leaves the file byte-identical to the first run's output. -/
theorem updateHclFile_idempotent (parse : String → Except String HclFile)
    (s varname value : String) (f f1 : HclFile)
    (h1 : parse s = .ok f)
    (h2 : updateLocal f varname value = (f1, none))
    (h3 : parse (serialize f1) = .ok f1) :
    (updateHclFile (benignSys s.length) parse s varname value).contents
      = serialize f1 ∧
    (updateHclFile (benignSys s.length) parse s varname value).ret = none ∧
    (updateHclFile (benignSys (serialize f1).length) parse (serialize f1)
        varname value).contents = serialize f1 ∧
    (updateHclFile (benignSys (serialize f1).length) parse (serialize f1)
        varname value).ret = none := by
  have hb1 : readBuffer (benignSys s.length) s = s :=
    readBuffer_eq_self _ s (by simp [benignSys])
  have hb2 : readBuffer (benignSys (serialize f1).length) (serialize f1) = serialize f1 :=
    readBuffer_eq_self _ (serialize f1) (by simp [benignSys])
  have h2' := updateLocal_idem f f1 varname value h2
  refine ⟨?_, ?_, ?_, ?_⟩ <;>
    simp [updateHclFile, updateHclFileCore, parseHclFile, saveHCLToFile, benignSys,
      readBuffer_eq_self, hb1, hb2, h1, h2, h2', h3]

/-- Claim C3: when the parse stage fails (syntactically invalid input) or the
update stage fails (attribute absent from every `locals` block), `updateHclFile`
returns the stage-wrapped error, the save step never runs, and the on-disk
contents are exactly the original ones. -/
theorem updateHclFile_early_failure_leaves_file (sys : SysBehavior)
    (parse : String → Except String HclFile) (contents varname value : String)
    (hopen : sys.openResult = none) :
    (∀ e, parseHclFile sys parse (some contents) = .error e →
      (updateHclFile sys parse contents varname value).contents = contents ∧
      (updateHclFile sys parse contents varname value).ret
        = some ("failed to parse HCL file: " ++ e)) ∧
    (∀ f m, parseHclFile sys parse (some contents) = .ok f →
      (updateLocal f varname value).2 = some m →
      (updateHclFile sys parse contents varname value).contents = contents ∧
      (updateHclFile sys parse contents varname value).ret
        = some ("failed to update local: " ++ m)) := by
  constructor
  · intro e he
    simp [updateHclFile, hopen, updateHclFileCore, he]
  · intro f m hf hm
    cases hu : updateLocal f varname value with
    | mk f1 oerr =>
      rw [hu] at hm
      simp at hm
      subst hm
      simp [updateHclFile, hopen, updateHclFileCore, hf, hu]

/-- Claim C7: a failing deferred close never replaces the error status of the
parse, update or save stages — the run's return value with a failing close is
the return value of the identical run with a successful close — and the close
failure is logged. -/
theorem updateHclFile_close_error_not_masking (sys : SysBehavior)
    (parse : String → Except String HclFile) (contents varname value e : String)
    (hopen : sys.openResult = none) :
    (updateHclFile { sys with closeErr := some e } parse contents varname value).ret
      = (updateHclFile { sys with closeErr := none } parse contents varname value).ret ∧
    ("Error closing file " ++ e)
      ∈ (updateHclFile { sys with closeErr := some e } parse contents varname value).log := by
  constructor
  · simp [updateHclFile, hopen, updateHclFileCore, parseHclFile, readBuffer, saveHCLToFile]
  · simp [updateHclFile, hopen]

/-- Claim C8: `parseHclFile` on a nil file handle fails at the stat step with
the `os.ErrInvalid` ("invalid argument") failure wrapped in the stat-stage
message, and produces no document. -/
theorem parseHclFile_nil_handle (sys : SysBehavior)
    (parse : String → Except String HclFile) :
    parseHclFile sys parse none = .error "failed to get file info: invalid argument" :=
  rfl

/-- Claim C6, counterexample: a read that delivers fewer bytes than the file
size (here 0 of 1) but reports no error does not make `parseHclFile` fail — the
zero-filled buffer is handed to the parser and its result is returned, so the
loader does not fail whenever fewer bytes are read than expected. -/
theorem parseHclFile_short_read_not_detected :
    sysShort.readCount < ("a" : String).length ∧
    parseHclFile sysShort parseAccept (some "a") = .ok ⟨[]⟩ := by
  constructor
  · decide
  · rfl

/-- Claim C6, amended: `parseHclFile` fills a buffer of exactly the statted
file size and fails with a read error exactly when the single `Read` call
reports an error; the number of bytes delivered is never compared with the
size, and an error-free short read hands the partially filled, zero-padded
buffer to the parser. -/
theorem parseHclFile_read_error_iff (sys : SysBehavior)
    (parse : String → Except String HclFile) (contents : String)
    (hstat : sys.statErr = none) :
    (readBuffer sys contents).length = contents.length ∧
    (∀ e, sys.readErr = some e →
      parseHclFile sys parse (some contents)
        = .error ("failed to read file content: " ++ e)) ∧
    (sys.readErr = none →
      parseHclFile sys parse (some contents)
        = match parse (readBuffer sys contents) with
          | .error diags => .error ("failed to parse file content: " ++ diags)
          | .ok f => .ok f) := by
  refine ⟨?_, ?_, ?_⟩
  · show (readBuffer sys contents).data.length = contents.length
    rw [readBuffer]
    simp [List.length_take]
  · intro e he
    simp [parseHclFile, hstat, he]
  · intro hr
    simp [parseHclFile, hstat, hr]

/-! ### Witnesses: the claim theorems applied at concrete inputs -/

/-- Witness for C1 at a file with two `locals` blocks both defining
`code_version`. -/
theorem updateLocal_first_match_wins_witness :
    updateLocal ⟨[] ++ .block sampleBlock :: ([] ++ .block sampleBlock2 :: [])⟩
        "code_version" "v2.55.4"
      = (⟨[] ++ .block (setBlockAttr sampleBlock "code_version" "v2.55.4")
          :: ([] ++ .block sampleBlock2 :: [])⟩, none) ∧
    getAttribute (setBlockAttr sampleBlock "code_version" "v2.55.4").body "code_version"
      = some { sampleAttr with valueToks := tokensForString "v2.55.4" } :=
  updateLocal_first_match_wins [] [] [] sampleBlock sampleBlock2 sampleAttr
    "code_version" "v2.55.4" (by decide) (by decide) (by decide) (by decide) (by decide)

/-- Witness for C2 at the empty document and `missing_var` (scenario B). -/
theorem updateLocal_error_iff_not_found_witness :
    ((updateLocal ⟨[]⟩ "missing_var" "v").2.isSome
      ↔ hasMatchIn (⟨[]⟩ : HclFile).items "missing_var" = false) ∧
    strContains (notFoundMsg "missing_var") "missing_var" ∧
    strContains (notFoundMsg "missing_var") "not found" :=
  ⟨(updateLocal_error_iff_not_found ⟨[]⟩ "missing_var" "v").1,
   (updateLocal_error_iff_not_found ⟨[]⟩ "missing_var" "v").2
     (notFoundMsg "missing_var") (by decide)⟩

/-- Witness for C3: the update stage fails on a document with no `locals`
block, and the file contents survive unchanged. -/
theorem updateHclFile_early_failure_leaves_file_witness :
    (updateHclFile sysShort parseAccept "a" "missing_var" "x").contents = "a" ∧
    (updateHclFile sysShort parseAccept "a" "missing_var" "x").ret
      = some ("failed to update local: " ++ notFoundMsg "missing_var") :=
  (updateHclFile_early_failure_leaves_file sysShort parseAccept "a" "missing_var" "x"
    rfl).2 ⟨[]⟩ (notFoundMsg "missing_var") rfl (by decide)

/-- Witness for C4 at scenario A. -/
theorem updateLocal_only_value_literal_changes_witness :
    ∃ before old after,
      serialize sampleFile = before ++ (old ++ after) ∧
      serialize sampleUpdated = before ++ (tokensForString "v2.55.4" ++ after) :=
  updateLocal_only_value_literal_changes sampleFile sampleUpdated
    "code_version" "v2.55.4" (by decide)

/-- Witness for C5 with the toy parser on scenario A. -/
theorem updateHclFile_idempotent_witness :
    (updateHclFile (benignSys (serialize sampleFile).length) toyParse
        (serialize sampleFile) "code_version" "v2.55.4").contents
      = serialize sampleUpdated ∧
    (updateHclFile (benignSys (serialize sampleFile).length) toyParse
        (serialize sampleFile) "code_version" "v2.55.4").ret = none ∧
    (updateHclFile (benignSys (serialize sampleUpdated).length) toyParse
        (serialize sampleUpdated) "code_version" "v2.55.4").contents
      = serialize sampleUpdated ∧
    (updateHclFile (benignSys (serialize sampleUpdated).length) toyParse
        (serialize sampleUpdated) "code_version" "v2.55.4").ret = none :=
  updateHclFile_idempotent toyParse (serialize sampleFile) "code_version" "v2.55.4"
    sampleFile sampleUpdated rfl (by decide) rfl

/-- Witness for the amended C6, at a 1-byte file whose read delivers 0 bytes. -/
theorem parseHclFile_read_error_iff_witness :
    (readBuffer sysShort "a").length = ("a" : String).length ∧
    (∀ e, sysShort.readErr = some e →
      parseHclFile sysShort parseAccept (some "a")
        = .error ("failed to read file content: " ++ e)) ∧
    (sysShort.readErr = none →
      parseHclFile sysShort parseAccept (some "a")
        = match parseAccept (readBuffer sysShort "a") with
          | .error diags => .error ("failed to parse file content: " ++ diags)
          | .ok f => .ok f) :=
  parseHclFile_read_error_iff sysShort parseAccept "a" rfl

/-- Witness for C7: a failing close after a failing update stage. -/
theorem updateHclFile_close_error_not_masking_witness :
    (updateHclFile { sysShort with closeErr := some "bad close" } parseAccept
        "a" "missing_var" "x").ret
      = (updateHclFile { sysShort with closeErr := none } parseAccept
          "a" "missing_var" "x").ret ∧
    ("Error closing file " ++ "bad close")
      ∈ (updateHclFile { sysShort with closeErr := some "bad close" } parseAccept
          "a" "missing_var" "x").log :=
  updateHclFile_close_error_not_masking sysShort parseAccept "a" "missing_var" "x"
    "bad close" rfl

/-- Witness for C9 at the empty document. -/
theorem updateLocal_not_found_no_mutation_witness :
    (updateLocal ⟨[]⟩ "missing_var" "x").1 = (⟨[]⟩ : HclFile) :=
  updateLocal_not_found_no_mutation ⟨[]⟩ "missing_var" "x"
    (notFoundMsg "missing_var") (by decide)

/-- Witness for C10 at an attribute currently holding the number literal 42. -/
theorem updateLocal_ignores_value_type_witness :
    updateLocal ⟨[] ++ .block numericBlock :: []⟩ numericAttr.name "v2.55.4"
      = (⟨[] ++ .block
            { numericBlock with
              body := [] ++ .attr { numericAttr with
                valueToks := tokensForString "v2.55.4" } :: [] }
          :: []⟩, none) :=
  updateLocal_ignores_value_type [] [] [] [] numericBlock numericAttr "v2.55.4"
    (by decide) (by decide) (by decide) (by decide)

end BumpTf
